import Mathlib

/-!
Scene-editor transform-gizmo core: shallow embedding and verification.

This development embeds the interaction core of a browser 3D scene editor:
the gizmo drag engine (`useGizmoDrag` in `TransformGizmo/useGizmoDrag.ts`),
the camera fly controls (`useFlyControls.ts`), the shared input-arbitration
flags (`useTransformDragState.ts`, `useRightMouseState.ts`), the keyboard
shortcut handler (`useKeyboardShortcuts.ts`), the selection selector and the
scene-graph reparent operation of the editor store (`editorStore.ts`,
`Hierarchy/utils.ts`), together with the small slice of the three.js math
library those files call into (`Vector3`, `Quaternion`, `Plane`, `Ray`,
`Euler`).

JavaScript numbers are modelled as real numbers; the registries and the
zustand store are modelled as explicit state records threaded through the
(pure) event-handler functions.
-/

namespace SceneEditor

noncomputable section

/-! ## three.js math primitives

Each definition mirrors the corresponding method of the three.js math
classes used by the editor source. -/

/-- A three.js `Vector3`. -/
structure Vec3 where
  x : ℝ
  y : ℝ
  z : ℝ

/-- `Vector3.add`. -/
def Vec3.add (a b : Vec3) : Vec3 := ⟨a.x + b.x, a.y + b.y, a.z + b.z⟩

/-- `Vector3.sub` / `Vector3.subVectors`. -/
def Vec3.sub (a b : Vec3) : Vec3 := ⟨a.x - b.x, a.y - b.y, a.z - b.z⟩

/-- `Vector3.multiply` (componentwise product). -/
def Vec3.multiply (a b : Vec3) : Vec3 := ⟨a.x * b.x, a.y * b.y, a.z * b.z⟩

/-- `Vector3.multiplyScalar`. -/
def Vec3.multiplyScalar (a : Vec3) (s : ℝ) : Vec3 := ⟨a.x * s, a.y * s, a.z * s⟩

/-- `Vector3.dot`. -/
def Vec3.dot (a b : Vec3) : ℝ := a.x * b.x + a.y * b.y + a.z * b.z

/-- `Vector3.crossVectors`. -/
def Vec3.cross (a b : Vec3) : Vec3 :=
  ⟨a.y * b.z - a.z * b.y, a.z * b.x - a.x * b.z, a.x * b.y - a.y * b.x⟩

/-- `Vector3.length` (Euclidean norm). -/
def Vec3.norm3 (a : Vec3) : ℝ := Real.sqrt (a.dot a)

/-- `Vector3.normalize`: three.js divides by `this.length() || 1`, so the zero
vector is left unchanged. -/
def Vec3.normalize (a : Vec3) : Vec3 :=
  if a.norm3 = 0 then a else a.multiplyScalar (1 / a.norm3)

/-- `Vector3.distanceTo`. -/
def Vec3.distanceTo (a b : Vec3) : ℝ := (a.sub b).norm3

/-- A three.js `Quaternion` (x, y, z imaginary parts, w real part). -/
structure Quat where
  x : ℝ
  y : ℝ
  z : ℝ
  w : ℝ

/-- `Quaternion.multiply`: Hamilton product `a * b` exactly as three.js
`multiplyQuaternions` computes it. -/
def Quat.multiply (a b : Quat) : Quat :=
  ⟨a.x * b.w + a.w * b.x + a.y * b.z - a.z * b.y,
   a.y * b.w + a.w * b.y + a.z * b.x - a.x * b.z,
   a.z * b.w + a.w * b.z + a.x * b.y - a.y * b.x,
   a.w * b.w - a.x * b.x - a.y * b.y - a.z * b.z⟩

/-- `Quaternion.invert`: three.js computes the conjugate (the quaternion is
assumed to have unit length). -/
def Quat.invert (a : Quat) : Quat := ⟨-a.x, -a.y, -a.z, a.w⟩

/-- `Quaternion.setFromAxisAngle` (axis assumed normalized). -/
def Quat.fromAxisAngle (axis : Vec3) (angle : ℝ) : Quat :=
  ⟨axis.x * Real.sin (angle / 2), axis.y * Real.sin (angle / 2),
   axis.z * Real.sin (angle / 2), Real.cos (angle / 2)⟩

/-- Componentwise negation of a quaternion (`-q` represents the same rotation
as `q`); used only in proofs. -/
def Quat.neg (a : Quat) : Quat := ⟨-a.x, -a.y, -a.z, -a.w⟩

/-- `Vector3.applyQuaternion`, exactly as three.js computes it:
`t = 2 * cross(q.xyz, v)`, `v' = v + q.w * t + cross(q.xyz, t)`. -/
def Vec3.applyQuaternion (v : Vec3) (q : Quat) : Vec3 :=
  let tx := 2 * (q.y * v.z - q.z * v.y)
  let ty := 2 * (q.z * v.x - q.x * v.z)
  let tz := 2 * (q.x * v.y - q.y * v.x)
  ⟨v.x + q.w * tx + q.y * tz - q.z * ty,
   v.y + q.w * ty + q.z * tx - q.x * tz,
   v.z + q.w * tz + q.x * ty - q.y * tx⟩

/-- `Math.atan2 y x`, modelled as the argument of the complex number
`x + y·i`, which lies in `(-π, π]` (and is `0` at the origin, matching
`Math.atan2(0, 0) = 0`). -/
def atan2 (y x : ℝ) : ℝ := Complex.arg (x + y * Complex.I)

/-- `Math.asin` with the `MathUtils.clamp(t, -1, 1)` three.js applies before
calling it in `Euler.setFromRotationMatrix`. -/
def asinClamp (t : ℝ) : ℝ := Real.arcsin (max (-1) (min 1 t))

/-- three.js `Euler.setFromQuaternion` for the default `XYZ` order: builds the
rotation matrix of the (unit) quaternion and extracts Euler angles the way
`Euler.setFromRotationMatrix` does, including the `0.9999999` gimbal
threshold. -/
def eulerXYZFromQuat (q : Quat) : Vec3 :=
  let m11 := 1 - 2 * (q.y * q.y + q.z * q.z)
  let m12 := 2 * (q.x * q.y - q.z * q.w)
  let m13 := 2 * (q.x * q.z + q.y * q.w)
  let m22 := 1 - 2 * (q.x * q.x + q.z * q.z)
  let m23 := 2 * (q.y * q.z - q.x * q.w)
  let m32 := 2 * (q.y * q.z + q.x * q.w)
  let m33 := 1 - 2 * (q.x * q.x + q.y * q.y)
  if |m13| < 0.9999999 then
    ⟨atan2 (-m23) m33, asinClamp m13, atan2 (-m12) m11⟩
  else
    ⟨atan2 m32 m22, asinClamp m13, 0⟩

/-- A three.js `Plane` in Hesse normal form: points `p` with
`normal ⬝ p + constant = 0`. -/
structure PlaneH where
  normal : Vec3
  constant : ℝ

/-- `Plane.distanceToPoint`. -/
def PlaneH.distanceToPoint (pl : PlaneH) (p : Vec3) : ℝ :=
  pl.normal.dot p + pl.constant

/-- A three.js `Ray`. -/
structure Ray3 where
  origin : Vec3
  dir : Vec3

/-- `Ray.distanceToPlane`: `none` when the ray misses the plane (parallel and
off-plane, or the intersection lies behind the origin). -/
def Ray3.distanceToPlane (r : Ray3) (pl : PlaneH) : Option ℝ :=
  let denominator := pl.normal.dot r.dir
  if denominator = 0 then
    if pl.distanceToPoint r.origin = 0 then some 0 else none
  else
    let t := -(r.origin.dot pl.normal + pl.constant) / denominator
    if 0 ≤ t then some t else none

/-- `Ray.at`. -/
def Ray3.at (r : Ray3) (t : ℝ) : Vec3 := r.origin.add (r.dir.multiplyScalar t)

/-- `Ray.intersectPlane`: `none` when there is no intersection; three.js then
leaves the target vector untouched and returns `null`. -/
def Ray3.intersectPlane (r : Ray3) (pl : PlaneH) : Option Vec3 :=
  (r.distanceToPlane pl).map r.at

/-! ## Editor data model (`types/index.ts`, `editorStore.ts`)

`position`/`rotation`/`scale` are `[number, number, number]` tuples in the
source; they are modelled as `Vec3`. The `objects: Record<string, SceneObject>`
map is modelled as an association list keyed by the object id (a `Record` has
unique keys; lookups take the first matching entry). Only the fields the
verified claims read are carried; the type-specific payload (geometry,
material, light parameters, …) is irrelevant to every claim and omitted. -/

/-- `TransformMode` (`'select' | 'translate' | 'rotate' | 'scale'`). -/
inductive TransformMode where
  | select | translate | rotate | scale
deriving DecidableEq, Repr

/-- `TransformSpace` (`'world' | 'local'`). -/
inductive TransformSpace where
  | world | locals
deriving DecidableEq, Repr

/-- The transform record of a scene object. -/
structure Transform3 where
  position : Vec3
  rotation : Vec3
  scale : Vec3

/-- A scene-graph node (`SceneObject`): stable id, nullable parent reference,
ordered child-id list, transform. -/
structure SceneObject where
  id : String
  parentId : Option String
  childIds : List String
  transform : Transform3

/-- `state.objects` (`Record<string, SceneObject>`) as an association list. -/
abbrev ObjectMap := List (String × SceneObject)

/-- `objects[id]`: first entry with the given key, `none` when absent. -/
def lookupObj : ObjectMap → String → Option SceneObject
  | [], _ => none
  | (k, o) :: rest, i => if k = i then some o else lookupObj rest i

/-- The live renderable registered for a scene node: a three.js `Object3D`
with linked `position`, `rotation` (Euler XYZ), `quaternion` and `scale`.
Writes to `quaternion` keep `rotation` in sync, as three.js does. -/
structure Mesh3 where
  position : Vec3
  rotation : Vec3
  quaternion : Quat
  scale : Vec3

/-- The `MeshRegistry` (`meshRegistry.ts`): a map from object id to its live
renderable. `register` overwrites, `unregister` removes, `get` looks up. -/
def MeshRegistry := String → Option Mesh3

/-- `MeshRegistry.get`. -/
def MeshRegistry.get (r : MeshRegistry) (i : String) : Option Mesh3 := r i

/-- `MeshRegistry.register` (also used for in-place mutation of a registered
mesh during a drag: the drag engine holds the registry's own object). -/
def MeshRegistry.register (r : MeshRegistry) (i : String) (m : Mesh3) : MeshRegistry :=
  fun j => if j = i then some m else r j

/-- The slice of the zustand editor store the drag engine touches, plus a log
of `updateTransform` commits (one entry per invocation) used to state the
"committed exactly once" property. -/
structure StoreSlice where
  objects : ObjectMap
  isDirty : Bool
  writeLog : List (String × Transform3)

/-- `updateTransform(id, transform)` of `editorStore.ts`: merges the new
transform into the object when it exists and marks the store dirty. The
gizmo's commit always passes all three fields, so the merge is a full
replacement here. Every invocation is recorded in `writeLog`. -/
def StoreSlice.updateTransform (s : StoreSlice) (i : String) (t : Transform3) : StoreSlice :=
  { objects :=
      s.objects.map (fun e => if e.1 = i then (e.1, { e.2 with transform := t }) else e)
    isDirty := if (lookupObj s.objects i).isSome then true else s.isDirty
    writeLog := s.writeLog ++ [(i, t)] }

/-- `useSelectedObject` (`editorStore.ts`): `null` unless exactly one id is
selected, otherwise `objects[selectedIds[0]] || null`. -/
def useSelectedObject (objects : ObjectMap) (selectedIds : List String) : Option SceneObject :=
  if selectedIds.length ≠ 1 then none
  else match selectedIds with
    | [] => none
    | i :: _ => lookupObj objects i

/-- The gizmo's render-time target (`TransformGizmo.tsx`): the component
returns `null` (renders no gizmo) when `useSelectedObject` gives nothing or
the transform mode is `select`. -/
def gizmoTarget (objects : ObjectMap) (selectedIds : List String)
    (mode : TransformMode) : Option SceneObject :=
  match useSelectedObject objects selectedIds with
  | none => none
  | some o => if mode = TransformMode.select then none else some o

/-! ## Input arbitration and fly controls (`useFlyControls.ts`,
`useRightMouseState.ts`, `useTransformDragState.ts`)

The two module-level arbitration flags and the fly-controls hook state are
gathered into one record; the `mousedown` handler is a pure state
transition. `rightMouseState.setDown` notifies subscribers only on change,
which does not affect the stored value modelled here. -/

/-- The state read and written by `useFlyControls`'s `onMouseDown`:
the hook's ref state (`isRightMouseDown`, `lastMouseX/Y`, `usePointerLock`),
the shared `rightMouseState` flag, the shared `transformDragState` flag
(present so its non-use by the handler is visible), and the orbit controller's
`enabled` switch. -/
structure FlyWorld where
  isRightMouseDown : Bool
  rightMouseFlag : Bool
  transformDraggingFlag : Bool
  orbitEnabled : Bool
  lastMouseX : ℝ
  lastMouseY : ℝ
  usePointerLock : Bool

/-- `onMouseDown` of `useFlyControls.ts` (lines 129–152): on the secondary
button (`e.button === 2`) it sets the hook's `isRightMouseDown`, updates the
shared `rightMouseState`, disables the orbit controls, stores the mouse
position for the pointer-lock fallback and requests pointer lock. It performs
no check of `transformDragState`. -/
def flyOnMouseDown (button : ℕ) (clientX clientY : ℝ) (w : FlyWorld) : FlyWorld :=
  if button = 2 then
    { w with
      isRightMouseDown := true
      rightMouseFlag := true
      orbitEnabled := false
      lastMouseX := clientX
      lastMouseY := clientY
      usePointerLock := true }
  else w

/-! ## Keyboard shortcuts (`useKeyboardShortcuts.ts`)

The handler's effect is modelled as the ordered list of store actions it
invokes; each action constructor names the store method called. -/

/-- A store method invoked by `handleKeyDown`. -/
inductive EditorAction where
  | setTransformMode (m : TransformMode)
  | updateShowGrid (b : Bool)
  | removeObject (i : String)
  | undoCmd
  | redoCmd
  | duplicateObject (i : String)
  | selectAll
  | clearSelection
deriving DecidableEq, Repr

/-- The mode cycle used for the Space shortcut
(`select -> translate -> rotate -> scale -> select`). -/
def modeCycle : List TransformMode :=
  [TransformMode.select, TransformMode.translate, TransformMode.rotate, TransformMode.scale]

/-- `handleKeyDown` of `useKeyboardShortcuts.ts` as the list of store actions
it performs, in call order. Inputs mirror the event fields it reads
(`e.key`, `e.ctrlKey || e.metaKey`, `e.shiftKey`), the shared
`rightMouseState.isDown`, and the store values the closure captured
(`transformMode`, `selectedIds`, `editorSettings.showGrid`). The
W/E/R/Q/Space/G/Delete/F branch runs only when neither Ctrl nor the right
mouse button is down; the Ctrl branch and the Escape branch run regardless of
the right-mouse flag. -/
def handleKeyDown (key : String) (ctrl shift rmbDown : Bool)
    (transformMode : TransformMode) (selectedIds : List String)
    (showGrid : Bool) : List EditorAction :=
  let lower := key.toLower
  let modeActions : List EditorAction :=
    if ¬ctrl ∧ ¬rmbDown then
      if lower = " " then
        let currentIndex := modeCycle.indexOf transformMode
        let nextIndex := (currentIndex + 1) % modeCycle.length
        [EditorAction.setTransformMode (modeCycle.getD nextIndex TransformMode.select)]
      else if lower = "q" then [EditorAction.setTransformMode TransformMode.select]
      else if lower = "w" then [EditorAction.setTransformMode TransformMode.translate]
      else if lower = "e" then [EditorAction.setTransformMode TransformMode.rotate]
      else if lower = "r" then [EditorAction.setTransformMode TransformMode.scale]
      else if lower = "g" then [EditorAction.updateShowGrid (¬showGrid)]
      else if lower = "delete" ∨ lower = "backspace" then
        selectedIds.map EditorAction.removeObject
      else []
    else []
  let ctrlActions : List EditorAction :=
    if ctrl then
      if lower = "z" then [if shift then EditorAction.redoCmd else EditorAction.undoCmd]
      else if lower = "y" then [EditorAction.redoCmd]
      else if lower = "d" then selectedIds.map EditorAction.duplicateObject
      else if lower = "a" then [EditorAction.selectAll]
      else []
    else []
  let escapeActions : List EditorAction :=
    if key = "Escape" then [EditorAction.clearSelection] else []
  modeActions ++ ctrlActions ++ escapeActions

/-! ## Gizmo drag engine (`useGizmoDrag.ts`)

The three pointer handlers are embedded as pure transitions on a `GizmoWorld`
record gathering every piece of state they read or write: the store slice,
the mesh registry (drag writes mutate the registered mesh in place), the
`dragRef` session state, the React `isDragging` state, the orbit controller's
`enabled` switch, the shared `transformDragState` flag, and whether the gizmo
element holds the pointer capture.

The scratch vector `_vec3a` is allocated once per render of the hook and
shared by the handler closures; `handlePointerMove` writes the current
plane intersection into it but — because `Ray.intersectPlane` leaves the
target untouched and returns `null` on a miss, and the subsequent
`if (!_vec3a) return` tests the (always truthy) vector object rather than the
returned value — a missed intersection silently reuses the stale contents.
`_vec3a` is therefore part of the session state (`scratchA`). The other
helpers (`_vec3b`, `_vec3c`, `_quat`, `_plane`) are fully overwritten before
every read and need no state. -/

/-- The non-null values of the `Axis` tag
(`'X' | 'Y' | 'Z' | 'XY' | 'XZ' | 'YZ' | 'XYZ'`); the nullable tag is
`Option AxisTag`. -/
inductive AxisTag where
  | X | Y | Z | XY | XZ | YZ | XYZ
deriving DecidableEq, Repr

/-- The `dragRef.current` session state of `useGizmoDrag`, plus the shared
scratch vector `_vec3a` (see the section comment). -/
structure DragState where
  active : Bool
  axis : Option AxisTag
  startPoint : Vec3
  startObjectPosition : Vec3
  startObjectRotation : Vec3
  startObjectScale : Vec3
  startQuaternion : Quat
  planeNormal : Vec3
  planeConstant : ℝ
  offset : Vec3
  startMouseX : ℝ
  startMouseY : ℝ
  scratchA : Vec3

/-- All state the gizmo pointer handlers touch. -/
structure GizmoWorld where
  store : StoreSlice
  registry : MeshRegistry
  drag : DragState
  isDraggingUI : Bool
  orbitEnabled : Bool
  transformDraggingFlag : Bool
  captured : Bool

/-- The fields of the r3f pointer event the drag handlers read: the hit point
`e.point`, the pointer ray `e.ray`, and `e.clientX`/`e.clientY`. -/
structure PointerEv where
  point : Vec3
  ray : Ray3
  clientX : ℝ
  clientY : ℝ

/-- The plane-normal choice of `handlePointerDown` for translate/scale mode:
single axes get the plane containing the axis that faces the camera most
(`normalize((a × eye) × a)`), plane handles get the spanned coordinate plane,
and the free handle gets the eye vector. -/
def translatePlaneNormal (ax : AxisTag) (eye : Vec3) : Vec3 :=
  match ax with
  | AxisTag.X => ((Vec3.cross ⟨1, 0, 0⟩ eye).cross ⟨1, 0, 0⟩).normalize
  | AxisTag.Y => ((Vec3.cross ⟨0, 1, 0⟩ eye).cross ⟨0, 1, 0⟩).normalize
  | AxisTag.Z => ((Vec3.cross ⟨0, 0, 1⟩ eye).cross ⟨0, 0, 1⟩).normalize
  | AxisTag.XY => ⟨0, 0, 1⟩
  | AxisTag.XZ => ⟨0, 1, 0⟩
  | AxisTag.YZ => ⟨1, 0, 0⟩
  | AxisTag.XYZ => eye

/-- The `_vec3a` contents `handlePointerDown` leaves behind: the unit axis
vector for a single-axis translate/scale handle, `(0,0,0)` otherwise (line
82's reset; line 128 clones before intersecting so `_vec3a` itself keeps this
value). -/
def downScratch (mode : TransformMode) (ax : AxisTag) : Vec3 :=
  if mode = TransformMode.translate ∨ mode = TransformMode.scale then
    match ax with
    | AxisTag.X => ⟨1, 0, 0⟩
    | AxisTag.Y => ⟨0, 1, 0⟩
    | AxisTag.Z => ⟨0, 0, 1⟩
    | _ => ⟨0, 0, 0⟩
  else ⟨0, 0, 0⟩

/-- `handlePointerDown` of `useGizmoDrag.ts`. Returns the world unchanged when
there is no live renderable for the selected object or the handle carries no
axis tag (`if (!targetMesh || !axis) return`). Otherwise: captures the
pointer, disables the orbit controls, raises the shared dragging flag, and
initializes the drag session state — snapshots of the target's transform, the
constraint-plane normal and offset (the plane passes through the target's
position), and the start point recomputed as the event ray's intersection
with that exact plane (kept as the raw hit point when the ray misses). -/
def handlePointerDown (cameraPos : Vec3) (mode : TransformMode) (space : TransformSpace)
    (sel : Option SceneObject) (ev : PointerEv) (axis : Option AxisTag)
    (w : GizmoWorld) : GizmoWorld :=
  match sel with
  | none => w
  | some obj =>
    match w.registry.get obj.id with
    | none => w
    | some targetMesh =>
      match axis with
      | none => w
      | some ax =>
        let eye := (cameraPos.sub targetMesh.position).normalize
        let normal0 :=
          if mode = TransformMode.translate ∨ mode = TransformMode.scale then
            translatePlaneNormal ax eye
          else if mode = TransformMode.rotate then
            match ax with
            | AxisTag.X => (⟨1, 0, 0⟩ : Vec3)
            | AxisTag.Y => (⟨0, 1, 0⟩ : Vec3)
            | AxisTag.Z => (⟨0, 0, 1⟩ : Vec3)
            | _ => w.drag.planeNormal
          else w.drag.planeNormal
        let normal1 :=
          if mode = TransformMode.translate ∨ mode = TransformMode.scale then
            if space = TransformSpace.locals ∧ mode = TransformMode.translate then
              normal0.applyQuaternion targetMesh.quaternion
            else normal0
          else if mode = TransformMode.rotate then
            if space = TransformSpace.locals then
              normal0.applyQuaternion targetMesh.quaternion
            else normal0
          else normal0
        let planeConstant := -(targetMesh.position.dot normal1)
        let startPoint :=
          match Ray3.intersectPlane ev.ray ⟨normal1, planeConstant⟩ with
          | some p => p
          | none => ev.point
        { w with
          captured := true
          orbitEnabled := false
          transformDraggingFlag := true
          isDraggingUI := true
          drag :=
            { active := true
              axis := some ax
              startPoint := startPoint
              startObjectPosition := targetMesh.position
              startObjectRotation := targetMesh.rotation
              startObjectScale := targetMesh.scale
              startQuaternion := targetMesh.quaternion
              planeNormal := normal1
              planeConstant := planeConstant
              offset := ev.point.sub targetMesh.position
              startMouseX := ev.clientX
              startMouseY := ev.clientY
              scratchA := downScratch mode ax } }

/-- The movement-axis mask of the constrained-translate branch
(`moveAxis.x = 1` for X/XY/XZ, etc.). -/
def moveAxisMask (ax : Option AxisTag) : Vec3 :=
  ⟨if ax = some AxisTag.X ∨ ax = some AxisTag.XY ∨ ax = some AxisTag.XZ then 1 else 0,
   if ax = some AxisTag.Y ∨ ax = some AxisTag.XY ∨ ax = some AxisTag.YZ then 1 else 0,
   if ax = some AxisTag.Z ∨ ax = some AxisTag.XZ ∨ ax = some AxisTag.YZ then 1 else 0⟩

/-- The axis direction of the scale branch (`axisVec`): unit axes for single
handles, normalized diagonals for plane/uniform handles, `(0,0,0)` for a
missing tag. -/
def scaleAxisVec (ax : Option AxisTag) : Vec3 :=
  match ax with
  | some AxisTag.X => ⟨1, 0, 0⟩
  | some AxisTag.Y => ⟨0, 1, 0⟩
  | some AxisTag.Z => ⟨0, 0, 1⟩
  | some AxisTag.XY => (⟨1, 1, 0⟩ : Vec3).normalize
  | some AxisTag.XZ => (⟨1, 0, 1⟩ : Vec3).normalize
  | some AxisTag.YZ => (⟨0, 1, 1⟩ : Vec3).normalize
  | some AxisTag.XYZ => (⟨1, 1, 1⟩ : Vec3).normalize
  | none => ⟨0, 0, 0⟩

/-- `handlePointerMove` of `useGizmoDrag.ts`. No-op unless a drag is active
and the selected object has a live renderable. Intersects the pointer ray
with the stored constraint plane into `_vec3a` (stale contents are reused on
a miss — the source's `if (!_vec3a) return` guard can never fire), then per
mode writes position (translate: delta from the start intersection, masked to
the permitted axes, rotated through the local frame in local space), rotation
(rotate: signed `atan2` angle between the plane-projected start and current
directions, applied about the plane normal and composed with the start
orientation — pre-multiplied in local space, post-multiplied in world space),
or scale (ratio of centre distances, signed by the drag-vector/axis dot
product, applied multiplicatively to the start scale) directly into the live
renderable. The store is never touched. -/
def handlePointerMove (mode : TransformMode) (space : TransformSpace)
    (sel : Option SceneObject) (ray : Ray3) (w : GizmoWorld) : GizmoWorld :=
  match sel with
  | none => w
  | some obj =>
    match w.registry.get obj.id with
    | none => w
    | some targetMesh =>
      if w.drag.active = false then w
      else
        let st := w.drag
        let inter := Ray3.intersectPlane ray ⟨st.planeNormal, st.planeConstant⟩
        let pointA := inter.getD st.scratchA
        let mesh1 : Mesh3 :=
          if mode = TransformMode.translate then
            let delta := pointA.sub st.startPoint
            if st.axis = some AxisTag.XYZ then
              { targetMesh with position := st.startObjectPosition.add delta }
            else
              let mask := moveAxisMask st.axis
              if space = TransformSpace.locals then
                let d1 := delta.applyQuaternion st.startQuaternion.invert
                let d2 := (d1.multiply mask).applyQuaternion st.startQuaternion
                { targetMesh with position := st.startObjectPosition.add d2 }
              else
                { targetMesh with
                  position := st.startObjectPosition.add (delta.multiply mask) }
          else if mode = TransformMode.rotate then
            let center := targetMesh.position
            let normal := st.planeNormal
            let startRel := (st.startPoint.sub center)
            let startVec :=
              (startRel.sub (normal.multiplyScalar (startRel.dot normal))).normalize
            let currentRel := pointA.sub center
            let currentVec :=
              (currentRel.sub (normal.multiplyScalar (currentRel.dot normal))).normalize
            let sinAngle := (startVec.cross currentVec).dot normal
            let cosAngle := startVec.dot currentVec
            let angle := atan2 sinAngle cosAngle
            let q := Quat.fromAxisAngle normal angle
            let q1 :=
              if space = TransformSpace.locals then st.startQuaternion.multiply q
              else q.multiply st.startQuaternion
            { targetMesh with quaternion := q1, rotation := eulerXYZFromQuat q1 }
          else if mode = TransformMode.scale then
            let startDist := st.startPoint.distanceTo targetMesh.position
            let currentDist := pointA.distanceTo targetMesh.position
            let dragVec := pointA.sub targetMesh.position
            let axisVec0 := scaleAxisVec st.axis
            let axisVec :=
              if space = TransformSpace.locals then
                axisVec0.applyQuaternion st.startQuaternion
              else axisVec0
            let dotA := dragVec.dot axisVec
            let scaleFactor := (if 0 < dotA then 1 else -1) * (currentDist / startDist)
            if st.axis = some AxisTag.XYZ then
              { targetMesh with scale := st.startObjectScale.multiplyScalar scaleFactor }
            else
              let s0 := st.startObjectScale
              let sx := if st.axis = some AxisTag.X ∨ st.axis = some AxisTag.XY ∨
                  st.axis = some AxisTag.XZ then s0.x * scaleFactor else s0.x
              let sy := if st.axis = some AxisTag.Y ∨ st.axis = some AxisTag.XY ∨
                  st.axis = some AxisTag.YZ then s0.y * scaleFactor else s0.y
              let sz := if st.axis = some AxisTag.Z ∨ st.axis = some AxisTag.XZ ∨
                  st.axis = some AxisTag.YZ then s0.z * scaleFactor else s0.z
              { targetMesh with scale := ⟨sx, sy, sz⟩ }
          else targetMesh
        { w with
          registry := w.registry.register obj.id mesh1
          drag := { st with scratchA := pointA } }

/-- `handlePointerUp` of `useGizmoDrag.ts`. No-op when no drag is active.
Otherwise: releases the pointer capture, deactivates the session, re-enables
the orbit controls, lowers the shared dragging flag, and — when the selected
object still has a live renderable — commits that renderable's current
position/rotation/scale to the store via `updateTransform`, exactly once. -/
def handlePointerUp (sel : Option SceneObject) (w : GizmoWorld) : GizmoWorld :=
  if w.drag.active = false then w
  else
    let w1 :=
      { w with
        captured := false
        drag := { w.drag with active := false }
        isDraggingUI := false
        orbitEnabled := true
        transformDraggingFlag := false }
    match sel with
    | none => w1
    | some obj =>
      match w.registry.get obj.id with
      | none => w1
      | some mesh =>
        { w1 with
          store := w1.store.updateTransform obj.id
            ⟨mesh.position, mesh.rotation, mesh.scale⟩ }

/-- A sequence of `handlePointerMove` events folded over the world. -/
def gizmoMoves (mode : TransformMode) (space : TransformSpace)
    (sel : Option SceneObject) (rays : List Ray3) (w : GizmoWorld) : GizmoWorld :=
  rays.foldl (fun acc r => handlePointerMove mode space sel r acc) w

/-! ## Scene-graph reparenting (`Hierarchy/utils.ts`, `editorStore.ts`,
`Hierarchy/hooks/useDragAndDrop.ts`)

`isDescendant` is a `while` loop walking the parent chain; it is embedded
with explicit fuel. `objects.length + 1` steps suffice on an acyclic graph:
the walk visits pairwise-distinct keys of the map. -/

/-- The parent-chain walk of `isDescendant` (`Hierarchy/utils.ts`): starting
from `cur`, repeatedly look the current node up and test whether its
`parentId` equals `anc`; stop at a missing node or a `null` parent. -/
def isDescendantAux (objects : ObjectMap) : ℕ → Option String → String → Bool
  | _, none, _ => false
  | 0, some _, _ => false
  | Nat.succ fuel, some cur, anc =>
    match lookupObj objects cur with
    | none => false
    | some o =>
      if o.parentId = some anc then true
      else isDescendantAux objects fuel o.parentId anc

/-- `isDescendant(objects, potentialDescendantId, ancestorId)`: whether
`ancestorId` occurs on the parent chain of `potentialDescendantId`. -/
def isDescendant (objects : ObjectMap) (potentialDescendantId ancestorId : String) : Bool :=
  isDescendantAux objects (objects.length + 1) (some potentialDescendantId) ancestorId

/-- `canReparent(objects, draggedId, targetId)`: moving to the root is always
allowed; moving onto itself or onto one of its own descendants is refused. -/
def canReparent (objects : ObjectMap) (draggedId : String)
    (targetId : Option String) : Bool :=
  match targetId with
  | none => true
  | some t =>
    if draggedId = t then false
    else ¬isDescendant objects t draggedId

/-- The per-entry rewrite `reparentObject` performs on the objects map, as a
function of the entry key: drop `id` from the old parent's child list (or
nothing at the root level), set `id`'s own `parentId`, and push `id` onto the
new parent's child list. `oldParent` is the moved object's parent id read
before the update. -/
def reparentEntry (id : String) (oldParent newParentId : Option String)
    (k : String) (o : SceneObject) : SceneObject :=
  let o1 := if some k = oldParent then
      { o with childIds := o.childIds.filter (fun cid => cid ≠ id) } else o
  let o2 := if k = id then { o1 with parentId := newParentId } else o1
  if some k = newParentId then { o2 with childIds := o2.childIds ++ [id] } else o2

/-- `reparentObject(id, newParentId)` of `editorStore.ts`, restricted to the
scene-graph links (`objects` entries' `parentId`/`childIds` and
`rootObjectIds`). No-op when `id` is not in the map. The remainder of the
source function only rewrites the moved object's own `transform` fields (to
preserve its world transform, via the mesh registry); it touches no
parent/child link and no other object, so it is irrelevant to the ancestry
claims and not modelled. -/
def reparentObject (objects : ObjectMap) (rootObjectIds : List String)
    (id : String) (newParentId : Option String) : ObjectMap × List String :=
  match lookupObj objects id with
  | none => (objects, rootObjectIds)
  | some o =>
    let roots1 := match o.parentId with
      | some _ => rootObjectIds
      | none => rootObjectIds.filter (fun rid => rid ≠ id)
    let objects1 := objects.map (fun e => (e.1, reparentEntry id o.parentId newParentId e.1 e.2))
    let roots2 := match newParentId with
      | some _ => roots1
      | none => roots1 ++ [id]
    (objects1, roots2)

/-- The guarded reparent path of the hierarchy drop handler
(`useDragAndDrop.ts`): `if (canReparent(objects, draggedId, targetId))
reparentObject(draggedId, targetId)`, otherwise nothing happens. -/
def reparentIfAllowed (objects : ObjectMap) (rootObjectIds : List String)
    (id : String) (newParentId : Option String) : ObjectMap × List String :=
  if canReparent objects id newParentId then reparentObject objects rootObjectIds id newParentId
  else (objects, rootObjectIds)

/-- One parent-chain step of the scene graph: `b` is the stored parent of
`a`. -/
def parentStep (objects : ObjectMap) (a b : String) : Prop :=
  ∃ o, lookupObj objects a = some o ∧ o.parentId = some b

/-- `b` is a (proper) ancestor of `a`: the parent chain from `a` reaches
`b` in one or more steps. -/
def Ancestor (objects : ObjectMap) (a b : String) : Prop :=
  Relation.TransGen (parentStep objects) a b

/-- The scene-graph invariant "a node is never its own ancestor": the parent
graph is acyclic. -/
def Acyclic (objects : ObjectMap) : Prop :=
  ∀ a, ¬Ancestor objects a a

/-- An explicit parent chain: `PChain g a l b` is a walk
`a → l₀ → l₁ → ⋯ → b` along `parentStep g`, with `l` the intermediate
nodes. -/
inductive PChain (objects : ObjectMap) : String → List String → String → Prop where
  | single {a b : String} : parentStep objects a b → PChain objects a [] b
  | cons {a x b : String} {l : List String} :
      parentStep objects a x → PChain objects x l b → PChain objects a (x :: l) b

/-! ## Concrete instances

Small concrete scenes, meshes and worlds used to evaluate the verified
properties on explicit inputs. -/

/-- The identity transform. -/
def demoTransform : Transform3 := ⟨⟨0, 0, 0⟩, ⟨0, 0, 0⟩, ⟨1, 1, 1⟩⟩

/-- A root scene node `node-a`. -/
def demoA : SceneObject := ⟨"node-a", none, [], demoTransform⟩

/-- A root scene node `node-b`. -/
def demoB : SceneObject := ⟨"node-b", none, [], demoTransform⟩

/-- A two-root scene. -/
def demoObjects : ObjectMap := [("node-a", demoA), ("node-b", demoB)]

/-- A live renderable at the origin with identity orientation and unit
scale. -/
def demoMesh : Mesh3 := ⟨⟨0, 0, 0⟩, ⟨0, 0, 0⟩, ⟨0, 0, 0, 1⟩, ⟨1, 1, 1⟩⟩

/-- An idle drag-session state. -/
def demoDrag : DragState :=
  ⟨false, none, ⟨0, 0, 0⟩, ⟨0, 0, 0⟩, ⟨0, 0, 0⟩, ⟨1, 1, 1⟩, ⟨0, 0, 0, 1⟩,
   ⟨0, 0, 0⟩, 0, ⟨0, 0, 0⟩, 0, 0, ⟨0, 0, 0⟩⟩

/-- The store slice holding the two-root demo scene. -/
def demoStore : StoreSlice := ⟨demoObjects, false, []⟩

/-- A registry with a single live renderable for `node-a`. -/
def demoRegistry : MeshRegistry := fun i => if i = "node-a" then some demoMesh else none

/-- An idle gizmo world over the demo scene (`node-a` mounted). -/
def demoWorld : GizmoWorld := ⟨demoStore, demoRegistry, demoDrag, false, true, false, false⟩

/-- An idle gizmo world whose registry is empty (no renderable mounted). -/
def demoWorldEmpty : GizmoWorld := ⟨demoStore, fun _ => none, demoDrag, false, true, false, false⟩

/-- A pointer-down event whose ray points straight down the −Z axis through
`(1/2, 0, 0)` with hit point `(1/2, 0, 0)`. -/
def demoEv : PointerEv := ⟨⟨1/2, 0, 0⟩, ⟨⟨1/2, 0, 1⟩, ⟨0, 0, -1⟩⟩, 0, 0⟩

/-- A camera position on the +Z axis. -/
def demoCamera : Vec3 := ⟨0, 0, 1⟩

/-- A pointer ray parallel to the `z = 0` plane and off it: it has no
intersection with that plane. -/
def missRay : Ray3 := ⟨⟨0, 0, 1⟩, ⟨1, 0, 0⟩⟩

/-! ## Verified properties -/

/-- C2 (evaluation at the failing input): with the gizmo-drag arbitration flag
raised (`transformDraggingFlag = true`), a secondary-button `mousedown`
(`e.button = 2`) still enters camera-fly mode — `onMouseDown` of
`useFlyControls.ts` never consults `transformDragState`, so it sets both the
hook's `isRightMouseDown` and the shared right-mouse flag to `true` and
disables the orbit controls, contradicting the stated arbitration (and the
stated purpose of `transformDragState` in `useTransformDragState.ts`). -/
theorem c2_fly_mode_entered_during_drag :
    (flyOnMouseDown 2 0 0 ⟨false, false, true, true, 0, 0, true⟩).rightMouseFlag = true ∧
    (flyOnMouseDown 2 0 0 ⟨false, false, true, true, 0, 0, true⟩).isRightMouseDown = true ∧
    (flyOnMouseDown 2 0 0 ⟨false, false, true, true, 0, 0, true⟩).orbitEnabled = false ∧
    (flyOnMouseDown 2 0 0 ⟨false, false, true, true, 0, 0, true⟩).transformDraggingFlag = true :=
  ⟨rfl, rfl, rfl, rfl⟩

/-- C7 (counterexample): while the right mouse button is held, pressing
Escape still clears the selection — the Escape branch of `handleKeyDown` runs
regardless of the right-mouse flag, so the claim that Escape is suppressed
while the secondary button is held is false. -/
theorem c7_escape_not_suppressed :
    handleKeyDown "Escape" false false true TransformMode.translate ["node-a"] true
      = [EditorAction.clearSelection] ∧
    [EditorAction.clearSelection] ≠ ([] : List EditorAction) :=
  ⟨by simp [handleKeyDown], by simp⟩

/-- C7 (amended): while the right mouse button is held and Ctrl is not, no
key produces any editor action except Escape, which still clears the
selection. In particular W/E/R/Q/Space do not change the transform mode, but
Escape is *not* suppressed. -/
theorem c7_rmb_keyboard_suppression (key : String) (shift : Bool)
    (mode : TransformMode) (selectedIds : List String) (showGrid : Bool) :
    handleKeyDown key false shift true mode selectedIds showGrid
      = if key = "Escape" then [EditorAction.clearSelection] else [] := by
  by_cases h : key = "Escape" <;> simp [handleKeyDown, h]

/-- C9 (counterexample): with two nodes selected, the gizmo has *no*
manipulation target at all — `useSelectedObject` returns `null` whenever the
selection does not have exactly one entry — rather than targeting the first
selected node as claimed. -/
theorem c9_two_selected_no_target :
    useSelectedObject demoObjects ["node-a", "node-b"] = none ∧
    lookupObj demoObjects "node-a" = some demoA ∧
    (none : Option SceneObject) ≠ some demoA := by
  refine ⟨by simp [useSelectedObject], by simp [demoObjects, lookupObj], by simp⟩

/-- C9 (amended): the gizmo's active manipulation target is the selected node
when the selection contains exactly one node identifier (and the mode shows a
gizmo); whenever the selection does not have exactly one entry — in
particular when two or more nodes are selected — `useSelectedObject` is
`none` and the gizmo renders no target. -/
theorem c9_single_selection_target (objects : ObjectMap) :
    (∀ i mode, mode ≠ TransformMode.select →
      gizmoTarget objects [i] mode = lookupObj objects i) ∧
    (∀ (sel : List String) mode, sel.length ≠ 1 → gizmoTarget objects sel mode = none) := by
  constructor
  · intro i mode hm
    simp only [gizmoTarget, useSelectedObject, List.length_singleton, ne_eq,
      not_true_eq_false, if_false]
    cases h : lookupObj objects i <;> simp [h, hm]
  · intro sel mode hlen
    simp [gizmoTarget, useSelectedObject, hlen]

/-- Witness for `c9_single_selection_target` at the concrete demo scene. -/
theorem c9_single_selection_target_witness :
    gizmoTarget demoObjects ["node-a"] TransformMode.translate = lookupObj demoObjects "node-a" ∧
    gizmoTarget demoObjects ["node-a", "node-b"] TransformMode.translate = none :=
  ⟨(c9_single_selection_target demoObjects).1 "node-a" TransformMode.translate (by decide),
   (c9_single_selection_target demoObjects).2 ["node-a", "node-b"] TransformMode.translate
     (by decide)⟩

/-- C8: a pointer-down with no live renderable for the selected target (or no
selected object, or a handle without an axis tag) is a complete no-op: the
whole gizmo world — drag state, arbitration flag, orbit switch, pointer
capture, store — is unchanged. -/
theorem c8_pointer_down_noop (cameraPos : Vec3) (mode : TransformMode)
    (space : TransformSpace) (sel : Option SceneObject) (ev : PointerEv)
    (axis : Option AxisTag) (w : GizmoWorld)
    (h : sel = none ∨ (∃ o, sel = some o ∧ w.registry.get o.id = none) ∨ axis = none) :
    handlePointerDown cameraPos mode space sel ev axis w = w := by
  rcases h with h | ⟨o, rfl, hr⟩ | h
  · subst h; rfl
  · simp only [handlePointerDown, hr]
  · subst h
    cases sel with
    | none => rfl
    | some o =>
      simp only [handlePointerDown]
      cases hro : w.registry.get o.id <;> simp [hro]

/-- Witness for `c8_pointer_down_noop`: a pointer-down on the X handle while
`node-a` has no registered renderable changes nothing. -/
theorem c8_pointer_down_noop_witness :
    handlePointerDown demoCamera TransformMode.translate TransformSpace.world
      (some demoA) demoEv (some AxisTag.X) demoWorldEmpty = demoWorldEmpty :=
  c8_pointer_down_noop demoCamera TransformMode.translate TransformSpace.world
    (some demoA) demoEv (some AxisTag.X) demoWorldEmpty
    (Or.inr (Or.inl ⟨demoA, rfl, rfl⟩))

/-! ### Drag-session lemmas

Field-level facts about the three pointer handlers, used for the round-trip
commit and axis-masking properties. -/

lemma move_store_eq (mode : TransformMode) (space : TransformSpace) (obj : SceneObject)
    (r : Ray3) (w : GizmoWorld) :
    (handlePointerMove mode space (some obj) r w).store = w.store := by
  simp only [handlePointerMove]
  cases hro : w.registry.get obj.id
  · rfl
  · cases ha : w.drag.active <;> simp [ha]

lemma move_active_eq (mode : TransformMode) (space : TransformSpace) (obj : SceneObject)
    (r : Ray3) (w : GizmoWorld) :
    (handlePointerMove mode space (some obj) r w).drag.active = w.drag.active := by
  simp only [handlePointerMove]
  cases hro : w.registry.get obj.id
  · rfl
  · cases ha : w.drag.active <;> simp [ha]

lemma move_registry_isSome (mode : TransformMode) (space : TransformSpace)
    (obj : SceneObject) (r : Ray3) (w : GizmoWorld)
    (h : (w.registry.get obj.id).isSome) :
    ((handlePointerMove mode space (some obj) r w).registry.get obj.id).isSome := by
  simp only [handlePointerMove]
  cases hro : w.registry.get obj.id
  · simp [hro] at h
  · cases ha : w.drag.active
    · simpa [ha] using h
    · simp [ha, MeshRegistry.get, MeshRegistry.register]

lemma moves_store_eq (mode : TransformMode) (space : TransformSpace) (obj : SceneObject)
    (rays : List Ray3) :
    ∀ w : GizmoWorld, (gizmoMoves mode space (some obj) rays w).store = w.store := by
  induction rays with
  | nil => intro w; rfl
  | cons r rest ih =>
    intro w
    calc (gizmoMoves mode space (some obj) (r :: rest) w).store
        = (handlePointerMove mode space (some obj) r w).store :=
          ih (handlePointerMove mode space (some obj) r w)
      _ = w.store := move_store_eq mode space obj r w

lemma moves_active_eq (mode : TransformMode) (space : TransformSpace) (obj : SceneObject)
    (rays : List Ray3) :
    ∀ w : GizmoWorld, (gizmoMoves mode space (some obj) rays w).drag.active = w.drag.active := by
  induction rays with
  | nil => intro w; rfl
  | cons r rest ih =>
    intro w
    calc (gizmoMoves mode space (some obj) (r :: rest) w).drag.active
        = (handlePointerMove mode space (some obj) r w).drag.active :=
          ih (handlePointerMove mode space (some obj) r w)
      _ = w.drag.active := move_active_eq mode space obj r w

lemma moves_registry_isSome (mode : TransformMode) (space : TransformSpace)
    (obj : SceneObject) (rays : List Ray3) :
    ∀ w : GizmoWorld, (w.registry.get obj.id).isSome →
      ((gizmoMoves mode space (some obj) rays w).registry.get obj.id).isSome := by
  induction rays with
  | nil => intro w h; exact h
  | cons r rest ih =>
    intro w h
    exact ih (handlePointerMove mode space (some obj) r w)
      (move_registry_isSome mode space obj r w h)

lemma down_store_eq (cameraPos : Vec3) (mode : TransformMode) (space : TransformSpace)
    (obj : SceneObject) (ev : PointerEv) (ax : AxisTag) (w : GizmoWorld) (m0 : Mesh3)
    (hreg : w.registry.get obj.id = some m0) :
    (handlePointerDown cameraPos mode space (some obj) ev (some ax) w).store = w.store := by
  simp only [handlePointerDown, hreg]

lemma down_registry_eq (cameraPos : Vec3) (mode : TransformMode) (space : TransformSpace)
    (obj : SceneObject) (ev : PointerEv) (ax : AxisTag) (w : GizmoWorld) (m0 : Mesh3)
    (hreg : w.registry.get obj.id = some m0) :
    (handlePointerDown cameraPos mode space (some obj) ev (some ax) w).registry = w.registry := by
  simp only [handlePointerDown, hreg]

lemma down_active_eq (cameraPos : Vec3) (mode : TransformMode) (space : TransformSpace)
    (obj : SceneObject) (ev : PointerEv) (ax : AxisTag) (w : GizmoWorld) (m0 : Mesh3)
    (hreg : w.registry.get obj.id = some m0) :
    (handlePointerDown cameraPos mode space (some obj) ev (some ax) w).drag.active = true := by
  simp only [handlePointerDown, hreg]

lemma down_axis_eq (cameraPos : Vec3) (mode : TransformMode) (space : TransformSpace)
    (obj : SceneObject) (ev : PointerEv) (ax : AxisTag) (w : GizmoWorld) (m0 : Mesh3)
    (hreg : w.registry.get obj.id = some m0) :
    (handlePointerDown cameraPos mode space (some obj) ev (some ax) w).drag.axis = some ax := by
  simp only [handlePointerDown, hreg]

lemma down_startObjectPosition_eq (cameraPos : Vec3) (mode : TransformMode)
    (space : TransformSpace) (obj : SceneObject) (ev : PointerEv) (ax : AxisTag)
    (w : GizmoWorld) (m0 : Mesh3) (hreg : w.registry.get obj.id = some m0) :
    (handlePointerDown cameraPos mode space (some obj) ev (some ax) w).drag.startObjectPosition
      = m0.position := by
  simp only [handlePointerDown, hreg]

lemma up_commit_eq (obj : SceneObject) (w : GizmoWorld) (mEnd : Mesh3)
    (hactive : w.drag.active = true) (hro : w.registry.get obj.id = some mEnd) :
    (handlePointerUp (some obj) w).store
      = w.store.updateTransform obj.id ⟨mEnd.position, mEnd.rotation, mEnd.scale⟩ := by
  simp only [handlePointerUp, hactive, hro]
  simp

lemma move_axis_eq (mode : TransformMode) (space : TransformSpace) (obj : SceneObject)
    (r : Ray3) (w : GizmoWorld) :
    (handlePointerMove mode space (some obj) r w).drag.axis = w.drag.axis := by
  simp only [handlePointerMove]
  cases hro : w.registry.get obj.id
  · rfl
  · cases ha : w.drag.active <;> simp [ha]

lemma move_startObjectPosition_eq (mode : TransformMode) (space : TransformSpace)
    (obj : SceneObject) (r : Ray3) (w : GizmoWorld) :
    (handlePointerMove mode space (some obj) r w).drag.startObjectPosition
      = w.drag.startObjectPosition := by
  simp only [handlePointerMove]
  cases hro : w.registry.get obj.id
  · rfl
  · cases ha : w.drag.active <;> simp [ha]

lemma move_translate_x_mask (obj : SceneObject) (r : Ray3) (w : GizmoWorld)
    (hactive : w.drag.active = true) (haxis : w.drag.axis = some AxisTag.X)
    (hsome : (w.registry.get obj.id).isSome) :
    ∃ m', (handlePointerMove TransformMode.translate TransformSpace.world
        (some obj) r w).registry.get obj.id = some m' ∧
      m'.position.y = w.drag.startObjectPosition.y ∧
      m'.position.z = w.drag.startObjectPosition.z := by
  obtain ⟨m, hm⟩ := Option.isSome_iff_exists.mp hsome
  have hm' : w.registry obj.id = some m := hm
  simp [handlePointerMove, hm, hm', hactive, haxis, MeshRegistry.get, MeshRegistry.register,
    moveAxisMask, Vec3.add, Vec3.multiply]

/-- C3: during a world-space translate-X drag, after every pointer-move (for
every prefix of the move sequence, with arbitrary pointer rays — including
rays that miss the constraint plane) the live target's Y and Z position
components are exactly the pre-drag values snapshotted at pointer-down: the
translation delta is masked to the X component only. -/
theorem c3_translate_x_axis_mask (cameraPos : Vec3) (obj : SceneObject) (m0 : Mesh3)
    (ev : PointerEv) (w0 : GizmoWorld) (hreg : w0.registry.get obj.id = some m0) :
    ∀ pre : List Ray3,
      ∃ m', (gizmoMoves TransformMode.translate TransformSpace.world (some obj) pre
          (handlePointerDown cameraPos TransformMode.translate TransformSpace.world
            (some obj) ev (some AxisTag.X) w0)).registry.get obj.id = some m' ∧
        m'.position.y = m0.position.y ∧ m'.position.z = m0.position.z := by
  set tr := TransformMode.translate
  set wo := TransformSpace.world
  have inv_step : ∀ (r : Ray3) (w : GizmoWorld),
      (w.drag.active = true ∧ w.drag.axis = some AxisTag.X ∧
        w.drag.startObjectPosition = m0.position ∧
        ∃ m, w.registry.get obj.id = some m ∧
          m.position.y = m0.position.y ∧ m.position.z = m0.position.z) →
      ((handlePointerMove tr wo (some obj) r w).drag.active = true ∧
        (handlePointerMove tr wo (some obj) r w).drag.axis = some AxisTag.X ∧
        (handlePointerMove tr wo (some obj) r w).drag.startObjectPosition = m0.position ∧
        ∃ m, (handlePointerMove tr wo (some obj) r w).registry.get obj.id = some m ∧
          m.position.y = m0.position.y ∧ m.position.z = m0.position.z) := by
    rintro r w ⟨hact, hax, hstart, m, hm, hy, hz⟩
    refine ⟨(move_active_eq tr wo obj r w).trans hact,
      (move_axis_eq tr wo obj r w).trans hax,
      (move_startObjectPosition_eq tr wo obj r w).trans hstart, ?_⟩
    obtain ⟨m', hm', hy', hz'⟩ :=
      move_translate_x_mask obj r w hact hax (by rw [hm]; rfl)
    exact ⟨m', hm', by rw [hy', hstart], by rw [hz', hstart]⟩
  have inv_fold : ∀ (pre : List Ray3) (w : GizmoWorld),
      (w.drag.active = true ∧ w.drag.axis = some AxisTag.X ∧
        w.drag.startObjectPosition = m0.position ∧
        ∃ m, w.registry.get obj.id = some m ∧
          m.position.y = m0.position.y ∧ m.position.z = m0.position.z) →
      ((gizmoMoves tr wo (some obj) pre w).drag.active = true ∧
        (gizmoMoves tr wo (some obj) pre w).drag.axis = some AxisTag.X ∧
        (gizmoMoves tr wo (some obj) pre w).drag.startObjectPosition = m0.position ∧
        ∃ m, (gizmoMoves tr wo (some obj) pre w).registry.get obj.id = some m ∧
          m.position.y = m0.position.y ∧ m.position.z = m0.position.z) := by
    intro pre
    induction pre with
    | nil => intro w h; exact h
    | cons r rest ih =>
      intro w h
      exact ih (handlePointerMove tr wo (some obj) r w) (inv_step r w h)
  intro pre
  have h1 := inv_fold pre
    (handlePointerDown cameraPos tr wo (some obj) ev (some AxisTag.X) w0)
    ⟨down_active_eq cameraPos tr wo obj ev AxisTag.X w0 m0 hreg,
     down_axis_eq cameraPos tr wo obj ev AxisTag.X w0 m0 hreg,
     down_startObjectPosition_eq cameraPos tr wo obj ev AxisTag.X w0 m0 hreg,
     m0, by rw [show (handlePointerDown cameraPos tr wo (some obj) ev (some AxisTag.X)
        w0).registry = w0.registry from
        down_registry_eq cameraPos tr wo obj ev AxisTag.X w0 m0 hreg]; exact hreg, rfl, rfl⟩
  exact h1.2.2.2

/-- Witness for `c3_translate_x_axis_mask`: a translate-X drag on the demo
world followed by one pointer-move whose ray misses the constraint plane
keeps Y and Z at their pre-drag values. -/
theorem c3_translate_x_axis_mask_witness :
    ∃ m', (gizmoMoves TransformMode.translate TransformSpace.world (some demoA) [missRay]
        (handlePointerDown demoCamera TransformMode.translate TransformSpace.world
          (some demoA) demoEv (some AxisTag.X) demoWorld)).registry.get demoA.id = some m' ∧
      m'.position.y = demoMesh.position.y ∧ m'.position.z = demoMesh.position.z :=
  c3_translate_x_axis_mask demoCamera demoA demoMesh demoEv demoWorld
    (by simp [demoWorld, demoRegistry, demoA, MeshRegistry.get]) [missRay]

lemma c6_down_eval :
    handlePointerDown demoCamera TransformMode.translate TransformSpace.world
      (some demoA) demoEv (some AxisTag.X) demoWorld
    = ⟨demoStore, demoRegistry,
        ⟨true, some AxisTag.X, ⟨1/2, 0, 0⟩, ⟨0, 0, 0⟩, ⟨0, 0, 0⟩, ⟨1, 1, 1⟩, ⟨0, 0, 0, 1⟩,
         ⟨0, 0, 1⟩, 0, ⟨1/2, 0, 0⟩, 0, 0, ⟨1, 0, 0⟩⟩,
        true, false, true, true⟩ := by
  have hreg : demoRegistry demoA.id = some demoMesh := by
    simp [demoRegistry, demoA]
  simp only [handlePointerDown, demoWorld, MeshRegistry.get, hreg]
  simp [demoMesh, demoCamera, demoEv, translatePlaneNormal, downScratch, Vec3.sub,
    Vec3.add, Vec3.dot, Vec3.cross, Vec3.normalize, Vec3.norm3, Vec3.multiplyScalar,
    Ray3.intersectPlane, Ray3.distanceToPlane, Ray3.at, PlaneH.distanceToPoint,
    Real.sqrt_one, GizmoWorld.mk.injEq, DragState.mk.injEq, Vec3.mk.injEq, demoStore,
    demoDrag]

/-- C6: a pointer-move whose ray has no intersection with the stored
constraint plane is *not* a no-op for that frame: because three.js
`intersectPlane` leaves its target vector untouched on a miss and the
handler's `if (!_vec3a) return` guard tests the (always truthy) vector object
instead of the returned value, the stale scratch contents — here the axis
vector `(1,0,0)` left by pointer-down — are used as the "current
intersection", producing a spurious delta. Concretely: drag-start on the X
handle of a target at the origin puts the start point at `(1/2, 0, 0)` on the
plane `z = 0`; a move along a ray parallel to that plane (no intersection)
then teleports the target to `(1/2, 0, 0)`. -/
theorem c6_missed_intersection_spurious_delta :
    Ray3.intersectPlane missRay
      ⟨(handlePointerDown demoCamera TransformMode.translate TransformSpace.world
          (some demoA) demoEv (some AxisTag.X) demoWorld).drag.planeNormal,
        (handlePointerDown demoCamera TransformMode.translate TransformSpace.world
          (some demoA) demoEv (some AxisTag.X) demoWorld).drag.planeConstant⟩ = none ∧
    demoMesh.position = ⟨0, 0, 0⟩ ∧
    ∃ m', (handlePointerMove TransformMode.translate TransformSpace.world (some demoA) missRay
        (handlePointerDown demoCamera TransformMode.translate TransformSpace.world
          (some demoA) demoEv (some AxisTag.X) demoWorld)).registry.get demoA.id = some m' ∧
      m'.position = ⟨1/2, 0, 0⟩ ∧ m'.position ≠ demoMesh.position := by
  rw [c6_down_eval]
  refine ⟨?_, rfl, ?_⟩
  · simp [Ray3.intersectPlane, Ray3.distanceToPlane, PlaneH.distanceToPoint,
      Vec3.dot, missRay]
  · have hreg : demoRegistry demoA.id = some demoMesh := by simp [demoRegistry, demoA]
    simp [handlePointerMove, MeshRegistry.get, MeshRegistry.register, hreg, demoMesh,
      Ray3.intersectPlane, Ray3.distanceToPlane, PlaneH.distanceToPoint, missRay,
      Vec3.dot, Vec3.sub, Vec3.add, Vec3.multiply, moveAxisMask, Vec3.mk.injEq]
    norm_num

/-- C5: for a scale-drag move (world space shown; the axis direction is the
handle's `axisVec`), the applied scale factor is exactly
`sign · (currentDistance / startDistance)` where the distances are measured
from the target's centre to the current/start plane intersections and the
sign is `+1` when the drag vector (current intersection − target position)
has positive dot product with the axis direction and `−1` otherwise. It is
applied multiplicatively to the start scale: only the X component for the X
handle, all three components for the uniform XYZ handle. Moreover, along a
straight path through the target's centre, `p = centre + t·(1,0,0)`, the
factor equals `t / startDistance` — linear in `t`, passing smoothly through
zero with the sign flip coming from the dot-product test, not from the
(always nonnegative) distance ratio. -/
theorem c5_scale_factor_sign (obj : SceneObject) (m : Mesh3) (ray : Ray3)
    (w : GizmoWorld) (p : Vec3)
    (hm : w.registry.get obj.id = some m)
    (hactive : w.drag.active = true)
    (hinter : Ray3.intersectPlane ray ⟨w.drag.planeNormal, w.drag.planeConstant⟩ = some p) :
    (w.drag.axis = some AxisTag.X →
      ∃ m', (handlePointerMove TransformMode.scale TransformSpace.world
          (some obj) ray w).registry.get obj.id = some m' ∧
        m'.scale = ⟨w.drag.startObjectScale.x *
            ((if 0 < (p.sub m.position).dot ⟨1, 0, 0⟩ then 1 else -1) *
              (p.distanceTo m.position / w.drag.startPoint.distanceTo m.position)),
          w.drag.startObjectScale.y, w.drag.startObjectScale.z⟩) ∧
    (w.drag.axis = some AxisTag.XYZ →
      ∃ m', (handlePointerMove TransformMode.scale TransformSpace.world
          (some obj) ray w).registry.get obj.id = some m' ∧
        m'.scale = w.drag.startObjectScale.multiplyScalar
          ((if 0 < (p.sub m.position).dot (⟨1, 1, 1⟩ : Vec3).normalize then 1 else -1) *
            (p.distanceTo m.position / w.drag.startPoint.distanceTo m.position))) ∧
    (∀ t : ℝ, p = m.position.add (Vec3.multiplyScalar ⟨1, 0, 0⟩ t) →
      (if 0 < (p.sub m.position).dot ⟨1, 0, 0⟩ then (1 : ℝ) else -1) *
          (p.distanceTo m.position / w.drag.startPoint.distanceTo m.position)
        = t / w.drag.startPoint.distanceTo m.position) := by
  have hm' : w.registry obj.id = some m := hm
  refine ⟨?_, ?_, ?_⟩
  · intro hax
    simp [handlePointerMove, hm', hactive, hinter, hax, scaleAxisVec,
      MeshRegistry.get, MeshRegistry.register, Vec3.mk.injEq]
  · intro hax
    simp [handlePointerMove, hm', hactive, hinter, hax, scaleAxisVec,
      MeshRegistry.get, MeshRegistry.register, Vec3.mk.injEq]
  · intro t hp
    have hsub : p.sub m.position = ⟨t, 0, 0⟩ := by
      rw [hp]
      simp [Vec3.add, Vec3.sub, Vec3.multiplyScalar, Vec3.mk.injEq]
    have hdot : (p.sub m.position).dot ⟨1, 0, 0⟩ = t := by
      rw [hsub]; simp [Vec3.dot]
    have hdist : p.distanceTo m.position = |t| := by
      rw [Vec3.distanceTo, hsub]
      simp [Vec3.norm3, Vec3.dot]
      exact Real.sqrt_mul_self_eq_abs t
    rw [hdot, hdist]
    by_cases ht : 0 < t
    · rw [if_pos ht, abs_of_pos ht]
      ring
    · rw [if_neg ht, abs_of_nonpos (le_of_not_lt ht)]
      rw [neg_div]
      ring

/-- Witness for `c5_scale_factor_sign`: a scale move on an active drag state
over the demo scene, with a pointer ray meeting the constraint plane `z = 0`
at `(2, 0, 0)`. -/
theorem c5_scale_factor_sign_witness :
    ∃ m', (handlePointerMove TransformMode.scale TransformSpace.world
        (some demoA) ⟨⟨2, 0, 1⟩, ⟨0, 0, -1⟩⟩
        ⟨demoStore, demoRegistry,
          ⟨true, some AxisTag.X, ⟨1, 0, 0⟩, ⟨0, 0, 0⟩, ⟨0, 0, 0⟩, ⟨1, 1, 1⟩, ⟨0, 0, 0, 1⟩,
           ⟨0, 0, 1⟩, 0, ⟨1, 0, 0⟩, 0, 0, ⟨1, 0, 0⟩⟩,
          true, false, true, true⟩).registry.get demoA.id = some m' ∧
      m'.scale = ⟨(1 : ℝ) *
          ((if 0 < ((⟨2, 0, 0⟩ : Vec3).sub demoMesh.position).dot ⟨1, 0, 0⟩ then 1 else -1) *
            ((⟨2, 0, 0⟩ : Vec3).distanceTo demoMesh.position /
              (⟨1, 0, 0⟩ : Vec3).distanceTo demoMesh.position)),
        1, 1⟩ := by
  have h := c5_scale_factor_sign demoA demoMesh ⟨⟨2, 0, 1⟩, ⟨0, 0, -1⟩⟩
    ⟨demoStore, demoRegistry,
      ⟨true, some AxisTag.X, ⟨1, 0, 0⟩, ⟨0, 0, 0⟩, ⟨0, 0, 0⟩, ⟨1, 1, 1⟩, ⟨0, 0, 0, 1⟩,
       ⟨0, 0, 1⟩, 0, ⟨1, 0, 0⟩, 0, 0, ⟨1, 0, 0⟩⟩,
      true, false, true, true⟩ ⟨2, 0, 0⟩
    (by simp [MeshRegistry.get, demoRegistry, demoA]) rfl
    (by simp [Ray3.intersectPlane, Ray3.distanceToPlane, PlaneH.distanceToPoint,
        Ray3.at, Vec3.dot, Vec3.add, Vec3.multiplyScalar, Vec3.mk.injEq])
  exact h.1 rfl

/-! ### Scene-graph ancestry lemmas

The bounded parent-chain walk of `isDescendant` is related to the semantic
`Ancestor` relation: explicit chains (`PChain`) connect the two, and on an
acyclic graph a chain never repeats a node, so `objects.length + 1` fuel
always suffices. -/

lemma lookupObj_mem {g : ObjectMap} {a : String} {o : SceneObject}
    (h : lookupObj g a = some o) : a ∈ g.map Prod.fst := by
  induction g with
  | nil => simp [lookupObj] at h
  | cons e rest ih =>
    obtain ⟨k, o0⟩ := e
    by_cases hk : k = a
    · simp [hk]
    · simp only [lookupObj, if_neg hk] at h
      simp [ih h]

lemma pchain_transGen {g : ObjectMap} {a b : String} {l : List String}
    (h : PChain g a l b) : Ancestor g a b := by
  induction h with
  | single hs => exact Relation.TransGen.single hs
  | cons hs _ ih => exact Relation.TransGen.head hs ih

lemma pchain_snoc {g : ObjectMap} {a b c : String} {l : List String}
    (h : PChain g a l b) (hbc : parentStep g b c) : PChain g a (l ++ [b]) c := by
  induction h with
  | single hs => exact PChain.cons hs (PChain.single hbc)
  | cons hs _ ih => exact PChain.cons hs (ih hbc)

lemma transGen_pchain {g : ObjectMap} {a b : String}
    (h : Ancestor g a b) : ∃ l, PChain g a l b := by
  induction h with
  | single hs => exact ⟨[], PChain.single hs⟩
  | tail _ hbc ih =>
    obtain ⟨l, hc⟩ := ih
    exact ⟨l ++ [_], pchain_snoc hc hbc⟩

lemma pchain_mem_transGen {g : ObjectMap} {x b : String} {l : List String}
    (h : PChain g x l b) : ∀ y ∈ x :: l, y = x ∨ Ancestor g x y := by
  induction h with
  | single hs =>
    intro y hy
    simp only [List.mem_singleton] at hy
    exact Or.inl hy
  | @cons a z bb l' hs htail ih =>
    intro y hy
    rcases List.mem_cons.mp hy with hya | hyz
    · exact Or.inl hya
    · rcases ih y hyz with hyz' | hanc
      · exact Or.inr (hyz' ▸ Relation.TransGen.single hs)
      · exact Or.inr (Relation.TransGen.head hs hanc)

lemma pchain_mem_to_end {g : ObjectMap} {x b : String} {l : List String}
    (h : PChain g x l b) : ∀ y ∈ x :: l, Ancestor g y b := by
  induction h with
  | single hs =>
    intro y hy
    simp only [List.mem_singleton] at hy
    exact hy ▸ Relation.TransGen.single hs
  | @cons a z bb l' hs htail ih =>
    intro y hy
    rcases List.mem_cons.mp hy with hya | hyz
    · exact hya ▸ Relation.TransGen.head hs (pchain_transGen htail)
    · exact ih y hyz

lemma pchain_nodup {g : ObjectMap} {a b : String} {l : List String}
    (hac : Acyclic g) (h : PChain g a l b) : (a :: l).Nodup := by
  induction h with
  | single hs => simp
  | @cons a z bb l' hs htail ih =>
    rw [List.nodup_cons]
    refine ⟨?_, ih⟩
    intro hmem
    rcases pchain_mem_transGen htail a hmem with haz | hanc
    · exact hac a (Relation.TransGen.single (haz ▸ hs))
    · exact hac a (Relation.TransGen.head hs hanc)

lemma pchain_keys {g : ObjectMap} {a b : String} {l : List String}
    (h : PChain g a l b) : ∀ y ∈ a :: l, y ∈ g.map Prod.fst := by
  induction h with
  | single hs =>
    intro y hy
    simp only [List.mem_singleton] at hy
    obtain ⟨o, hl, _⟩ := hs
    exact hy ▸ lookupObj_mem hl
  | @cons a z bb l' hs htail ih =>
    intro y hy
    rcases List.mem_cons.mp hy with hya | hyz
    · obtain ⟨o, hl, _⟩ := hs
      exact hya ▸ lookupObj_mem hl
    · exact ih y hyz

lemma pchain_length_le {g : ObjectMap} {a b : String} {l : List String}
    (hac : Acyclic g) (h : PChain g a l b) : l.length + 1 ≤ g.length := by
  have hnd := pchain_nodup hac h
  have hsub : (a :: l) ⊆ g.map Prod.fst := fun y hy => pchain_keys h y hy
  have hle := (List.subperm_of_subset hnd hsub).length_le
  simpa using hle

lemma pchain_walk {g : ObjectMap} {a b : String} {l : List String}
    (h : PChain g a l b) : ∀ {fuel : ℕ}, l.length + 1 ≤ fuel →
      isDescendantAux g fuel (some a) b = true := by
  induction h with
  | @single a b hs =>
    intro fuel hfuel
    obtain ⟨o, hl, hp⟩ := hs
    match fuel, hfuel with
    | fuel + 1, _ => simp [isDescendantAux, hl, hp]
  | @cons a z bb l' hs htail ih =>
    intro fuel hfuel
    obtain ⟨o, hl, hp⟩ := hs
    match fuel, hfuel with
    | fuel + 1, hfuel =>
      by_cases hpb : o.parentId = some bb
      · simp [isDescendantAux, hl, hpb]
      · rw [hp] at hpb
        simp only [isDescendantAux, hl, hp, if_neg hpb]
        exact ih (by simpa using Nat.le_of_succ_le_succ hfuel)

lemma ancestor_isDescendant {g : ObjectMap} {t i : String}
    (hac : Acyclic g) (h : Ancestor g t i) : isDescendant g t i = true := by
  obtain ⟨l, hc⟩ := transGen_pchain h
  exact pchain_walk hc (Nat.le_succ_of_le (pchain_length_le hac hc))

/-! ### Reparent characterization lemmas -/

lemma lookupObj_map_entry (f : String → SceneObject → SceneObject) :
    ∀ (g : ObjectMap) (a : String),
      lookupObj (g.map (fun e => (e.1, f e.1 e.2))) a = (lookupObj g a).map (f a) := by
  intro g a
  induction g with
  | nil => rfl
  | cons e rest ih =>
    obtain ⟨k, o⟩ := e
    by_cases hk : k = a
    · subst hk; simp [lookupObj]
    · simp [lookupObj, hk, ih]

lemma reparentEntry_parentId (id : String) (oldP newP : Option String)
    (k : String) (o : SceneObject) :
    (reparentEntry id oldP newP k o).parentId = if k = id then newP else o.parentId := by
  unfold reparentEntry
  split_ifs <;> rfl

lemma reparent_lookup {g : ObjectMap} {roots : List String} {id : String}
    {newP : Option String} {o : SceneObject} (hid : lookupObj g id = some o) (a : String) :
    lookupObj (reparentObject g roots id newP).1 a
      = (lookupObj g a).map (reparentEntry id o.parentId newP a) := by
  simp only [reparentObject, hid]
  exact lookupObj_map_entry _ g a

lemma reparent_none {g : ObjectMap} {roots : List String} {id : String}
    {newP : Option String} (hid : lookupObj g id = none) :
    reparentObject g roots id newP = (g, roots) := by
  simp only [reparentObject, hid]

lemma parentStep_reparent_ne {g : ObjectMap} {roots : List String} {id : String}
    {newP : Option String} {o : SceneObject} {a b : String}
    (hid : lookupObj g id = some o) (ha : a ≠ id)
    (h : parentStep (reparentObject g roots id newP).1 a b) : parentStep g a b := by
  obtain ⟨o', hl, hp⟩ := h
  rw [reparent_lookup hid a] at hl
  cases hla : lookupObj g a with
  | none => rw [hla] at hl; simp at hl
  | some o0 =>
    rw [hla] at hl
    simp only [Option.map_some'] at hl
    have hl' : reparentEntry id o.parentId newP a o0 = o' := Option.some.inj hl
    rw [← hl', reparentEntry_parentId, if_neg ha] at hp
    exact ⟨o0, hla, hp⟩

lemma parentStep_reparent_id {g : ObjectMap} {roots : List String} {id : String}
    {newP : Option String} {o : SceneObject} {b : String}
    (hid : lookupObj g id = some o)
    (h : parentStep (reparentObject g roots id newP).1 id b) : newP = some b := by
  obtain ⟨o', hl, hp⟩ := h
  rw [reparent_lookup hid id, hid] at hl
  simp only [Option.map_some'] at hl
  have hl' : reparentEntry id o.parentId newP id o = o' := Option.some.inj hl
  rw [← hl', reparentEntry_parentId, if_pos rfl] at hp
  exact hp

lemma pchain_transfer {g : ObjectMap} {roots : List String} {id : String}
    {newP : Option String} {o : SceneObject} (hid : lookupObj g id = some o)
    {x b : String} {l : List String}
    (h : PChain (reparentObject g roots id newP).1 x l b) (hmem : id ∉ x :: l) :
    PChain g x l b := by
  induction h with
  | @single a bb hs =>
    refine PChain.single (parentStep_reparent_ne hid ?_ hs)
    intro ha
    exact hmem (by simp [ha])
  | @cons a z bb l' hs htail ih =>
    refine PChain.cons (parentStep_reparent_ne hid ?_ hs) (ih ?_)
    · intro ha
      exact hmem (by simp [ha])
    · intro hz
      exact hmem (List.mem_cons_of_mem _ hz)

lemma reflTransGen_transfer {g : ObjectMap} {roots : List String} {id : String}
    {newP : Option String} {o : SceneObject} (hid : lookupObj g id = some o)
    {y : String}
    (h : Relation.ReflTransGen (parentStep (reparentObject g roots id newP).1) y id) :
    y = id ∨ Ancestor g y id := by
  induction h using Relation.ReflTransGen.head_induction_on with
  | refl => exact Or.inl rfl
  | @head a c hac hcid ih =>
    by_cases ha : a = id
    · exact Or.inl ha
    · have hstep : parentStep g a c := parentStep_reparent_ne hid ha hac
      rcases ih with hc | hanc
      · exact Or.inr (Relation.TransGen.single (hc ▸ hstep))
      · exact Or.inr (Relation.TransGen.head hstep hanc)

lemma reparent_keeps_acyclic {g : ObjectMap} {roots : List String} {id : String}
    {newP : Option String} (hac : Acyclic g) (hcan : canReparent g id newP = true) :
    Acyclic (reparentObject g roots id newP).1 := by
  cases hid : lookupObj g id with
  | none => rw [reparent_none hid]; exact hac
  | some o =>
    intro x hx
    obtain ⟨l, hchain⟩ := transGen_pchain hx
    by_cases hmem : id ∈ x :: l
    · -- the cycle passes through `id`; rotate it to a cycle based at `id`
      have hidx : Ancestor (reparentObject g roots id newP).1 id x :=
        pchain_mem_to_end hchain id hmem
      have hxid : id = x ∨ Ancestor (reparentObject g roots id newP).1 x id :=
        pchain_mem_transGen hchain id hmem
      have hidid : Ancestor (reparentObject g roots id newP).1 id id := by
        rcases hxid with rfl | hanc
        · exact hx
        · exact Relation.TransGen.trans hidx hanc
      -- the first step of that cycle goes to the new parent
      obtain ⟨c, hstep, htl⟩ := Relation.TransGen.head'_iff.mp hidid
      have hc : newP = some c := parentStep_reparent_id hid hstep
      rw [hc] at hcan
      simp only [canReparent] at hcan
      by_cases hidc : id = c
      · rw [if_pos hidc] at hcan; exact Bool.false_ne_true hcan
      · rw [if_neg hidc] at hcan
        rcases reflTransGen_transfer hid htl with hcid | hanc
        · exact hidc hcid.symm
        · have := ancestor_isDescendant hac hanc
          simp [this] at hcan
    · exact hac x (pchain_transGen (pchain_transfer hid hchain hmem))

/-- C10: on an acyclic scene graph, the guarded reparent operation (the
hierarchy drop handler's `canReparent` check in front of the store's
`reparentObject`) (i) refuses as a complete no-op any reparent whose new
parent is the node itself or one of its own descendants — the refusal coming
from the `isDescendant` ancestor-chain walk — and (ii) always preserves
acyclicity: after every guarded reparent, no node is its own ancestor. -/
theorem c10_reparent_guard_acyclic (g : ObjectMap) (roots : List String)
    (id : String) (tgt : Option String) (hac : Acyclic g) :
    ((tgt = some id ∨ ∃ t, tgt = some t ∧ Ancestor g t id) →
      reparentIfAllowed g roots id tgt = (g, roots)) ∧
    Acyclic (reparentIfAllowed g roots id tgt).1 := by
  constructor
  · intro h
    have hcan : canReparent g id tgt = false := by
      rcases h with rfl | ⟨t, rfl, hanc⟩
      · simp [canReparent]
      · simp only [canReparent]
        by_cases hit : id = t
        · rw [if_pos hit]
        · rw [if_neg hit]
          simp [ancestor_isDescendant hac hanc]
    simp [reparentIfAllowed, hcan]
  · unfold reparentIfAllowed
    by_cases hcan : canReparent g id tgt = true
    · rw [if_pos hcan]
      exact reparent_keeps_acyclic hac hcan
    · rw [if_neg hcan]
      exact hac

lemma demo_no_parentStep (a b : String) : ¬parentStep demoObjects a b := by
  rintro ⟨o, hl, hp⟩
  have hnone : o.parentId = none := by
    simp only [demoObjects, lookupObj] at hl
    split_ifs at hl with h1 h2
    · cases hl; rfl
    · cases hl; rfl
  rw [hnone] at hp
  cases hp

lemma demo_acyclic : Acyclic demoObjects := by
  intro a h
  obtain ⟨c, hstep, _⟩ := Relation.TransGen.head'_iff.mp h
  exact demo_no_parentStep a c hstep

/-- Witness for `c10_reparent_guard_acyclic`: on the concrete two-root demo
scene, reparenting `node-b` under `node-a` keeps the graph acyclic, and
reparenting `node-b` under itself is refused as a no-op. -/
theorem c10_reparent_guard_acyclic_witness :
    Acyclic (reparentIfAllowed demoObjects ["node-a", "node-b"] "node-b" (some "node-a")).1 ∧
    reparentIfAllowed demoObjects ["node-a", "node-b"] "node-b" (some "node-b")
      = (demoObjects, ["node-a", "node-b"]) :=
  ⟨(c10_reparent_guard_acyclic demoObjects ["node-a", "node-b"] "node-b" (some "node-a")
      demo_acyclic).2,
   (c10_reparent_guard_acyclic demoObjects ["node-a", "node-b"] "node-b" (some "node-b")
      demo_acyclic).1 (Or.inl rfl)⟩

/-! ### Rotation-angle lemmas

`atan2` is `Complex.arg`, so the computed angle always lies in `(-π, π]`; on
the unit circle it recovers the geometric angle up to a multiple of `2π`, and
a `2π`-shift only negates the axis-angle quaternion, which acts identically
on vectors. -/

lemma applyQuaternion_neg (v : Vec3) (q : Quat) :
    v.applyQuaternion q.neg = v.applyQuaternion q := by
  simp only [Vec3.applyQuaternion, Quat.neg, Vec3.mk.injEq]
  refine ⟨by ring, by ring, by ring⟩

lemma multiply_neg_left (a b : Quat) : (Quat.neg a).multiply b = Quat.neg (a.multiply b) := by
  simp only [Quat.multiply, Quat.neg, Quat.mk.injEq]
  refine ⟨by ring, by ring, by ring, by ring⟩

lemma multiply_neg_right (a b : Quat) : a.multiply (Quat.neg b) = Quat.neg (a.multiply b) := by
  simp only [Quat.multiply, Quat.neg, Quat.mk.injEq]
  refine ⟨by ring, by ring, by ring, by ring⟩

lemma atan2_neg_pi_lt (y x : ℝ) : -Real.pi < atan2 y x :=
  Complex.neg_pi_lt_arg _

lemma atan2_le_pi (y x : ℝ) : atan2 y x ≤ Real.pi :=
  Complex.arg_le_pi _

lemma atan2_sin_cos_shift (θ : ℝ) :
    ∃ k : ℤ, atan2 (Real.sin θ) (Real.cos θ) = θ + 2 * Real.pi * k := by
  refine ⟨⌊(Real.pi - θ) / (2 * Real.pi)⌋, ?_⟩
  have h := Complex.arg_cos_add_sin_mul_I_sub θ
  unfold atan2
  rw [Complex.ofReal_cos, Complex.ofReal_sin]
  linarith [h]

lemma atan2_sin_cos_eq {θ : ℝ} (hθ : θ ∈ Set.Ioc (-Real.pi) Real.pi) :
    atan2 (Real.sin θ) (Real.cos θ) = θ := by
  unfold atan2
  rw [Complex.ofReal_cos, Complex.ofReal_sin]
  exact Complex.arg_cos_add_sin_mul_I hθ

lemma fromAxisAngle_shift (n : Vec3) (θ : ℝ) (k : ℤ) :
    Quat.fromAxisAngle n (θ + 2 * Real.pi * k) = Quat.fromAxisAngle n θ ∨
    Quat.fromAxisAngle n (θ + 2 * Real.pi * k) = Quat.neg (Quat.fromAxisAngle n θ) := by
  have hhalf : (θ + 2 * Real.pi * k) / 2 = θ / 2 + k * Real.pi := by ring
  have hs : Real.sin ((θ + 2 * Real.pi * k) / 2) = (-1) ^ k * Real.sin (θ / 2) := by
    rw [hhalf]; exact Real.sin_add_int_mul_pi _ k
  have hc : Real.cos ((θ + 2 * Real.pi * k) / 2) = (-1) ^ k * Real.cos (θ / 2) := by
    rw [hhalf]; exact Real.cos_add_int_mul_pi _ k
  rcases Int.even_or_odd k with he | ho
  · left
    have h1 : ((-1 : ℝ)) ^ k = 1 := he.neg_one_zpow
    simp [Quat.fromAxisAngle, hs, hc, h1]
  · right
    have h1 : ((-1 : ℝ)) ^ k = -1 := ho.neg_one_zpow
    simp only [Quat.fromAxisAngle, Quat.neg, hs, hc, h1, Quat.mk.injEq]
    refine ⟨by ring, by ring, by ring, by ring⟩

/-! ### Small vector identities used for the rotation geometry -/

lemma vec_add_sub (a b : Vec3) : (a.add b).sub a = b := by
  obtain ⟨a1, a2, a3⟩ := a
  obtain ⟨b1, b2, b3⟩ := b
  simp [Vec3.add, Vec3.sub]

lemma vec_sub_smul_zero (a n : Vec3) : a.sub (n.multiplyScalar 0) = a := by
  obtain ⟨a1, a2, a3⟩ := a
  obtain ⟨n1, n2, n3⟩ := n
  simp [Vec3.sub, Vec3.multiplyScalar]

lemma normalize_smul_unit {u : Vec3} {s : ℝ} (hu : u.dot u = 1) (hs : 0 < s) :
    (u.multiplyScalar s).normalize = u := by
  have hdot : (u.multiplyScalar s).dot (u.multiplyScalar s) = s ^ 2 := by
    simp only [Vec3.multiplyScalar, Vec3.dot] at hu ⊢
    linear_combination s ^ 2 * hu
  have hnorm : (u.multiplyScalar s).norm3 = s := by
    rw [Vec3.norm3, hdot]
    exact Real.sqrt_sq hs.le
  have hsne : s ≠ 0 := hs.ne'
  obtain ⟨u1, u2, u3⟩ := u
  rw [Vec3.normalize, hnorm, if_neg hsne]
  simp only [Vec3.multiplyScalar, Vec3.mk.injEq]
  refine ⟨?_, ?_, ?_⟩ <;> field_simp

/-- C4: for a rotate-drag move whose pointer ray meets the constraint plane
on the circle of direction angle `θ` around the target (start intersection at
angle `0`, in the orthonormal frame `u`, `v = n × u`-style with `u × v = n`,
`n` the stored rotation axis), the handler composes the start orientation
with the axis-angle quaternion of exactly
`atan2 (dot n (cross startDir currentDir)) (dot startDir currentDir)`
computed from the plane-projected, normalized start/current directions —
which here equals `atan2 (sin θ) (cos θ)`: a signed angle always in the full
`(-π, π]` range, equal to `θ` itself for `θ ∈ (-π, π]`, and — for *every*
real `θ`, i.e. across the ±π wrap of a full circular path — the applied
rotation acts on vectors exactly as the axis-angle rotation by `θ` does (the
2π wrap only negates the quaternion, which is the same rotation, so the
applied transform has no discontinuity at the boundary). Composition order:
pre-multiplied onto the start orientation in local space, post-multiplied in
world space. -/
theorem c4_rotate_atan2_angle (space : TransformSpace) (obj : SceneObject) (m : Mesh3)
    (ray : Ray3) (w : GizmoWorld) (u v n : Vec3) (s r θ : ℝ)
    (hm : w.registry.get obj.id = some m)
    (hact : w.drag.active = true)
    (hn : w.drag.planeNormal = n)
    (hstart : w.drag.startPoint = m.position.add (u.multiplyScalar s))
    (hs : 0 < s) (hr : 0 < r)
    (huu : u.dot u = 1) (hvv : v.dot v = 1) (hnn : n.dot n = 1)
    (huv : u.dot v = 0) (hun : u.dot n = 0) (hvn : v.dot n = 0)
    (hcr : u.cross v = n)
    (hp : Ray3.intersectPlane ray ⟨w.drag.planeNormal, w.drag.planeConstant⟩
      = some (m.position.add
          (((u.multiplyScalar (Real.cos θ)).add (v.multiplyScalar (Real.sin θ))).multiplyScalar r))) :
    ∃ m', (handlePointerMove TransformMode.rotate space (some obj) ray w).registry.get obj.id
        = some m' ∧
      m'.quaternion = (if space = TransformSpace.locals
          then w.drag.startQuaternion.multiply
            (Quat.fromAxisAngle n (atan2 (Real.sin θ) (Real.cos θ)))
          else (Quat.fromAxisAngle n (atan2 (Real.sin θ) (Real.cos θ))).multiply
            w.drag.startQuaternion) ∧
      (-Real.pi < atan2 (Real.sin θ) (Real.cos θ) ∧
        atan2 (Real.sin θ) (Real.cos θ) ≤ Real.pi) ∧
      (θ ∈ Set.Ioc (-Real.pi) Real.pi → atan2 (Real.sin θ) (Real.cos θ) = θ) ∧
      (∀ vec : Vec3, vec.applyQuaternion m'.quaternion
          = vec.applyQuaternion (if space = TransformSpace.locals
              then w.drag.startQuaternion.multiply (Quat.fromAxisAngle n θ)
              else (Quat.fromAxisAngle n θ).multiply w.drag.startQuaternion)) := by
  have hm' : w.registry obj.id = some m := hm
  rw [hn] at hp
  -- geometry: the projected, normalized start direction is `u`
  have hwn : (u.multiplyScalar s).dot n = 0 := by
    simp only [Vec3.multiplyScalar, Vec3.dot] at hun ⊢
    linear_combination s * hun
  have hstartRel : w.drag.startPoint.sub m.position = u.multiplyScalar s := by
    rw [hstart]; exact vec_add_sub _ _
  have hstartDir : ((w.drag.startPoint.sub m.position).sub
      (n.multiplyScalar ((w.drag.startPoint.sub m.position).dot n))).normalize = u := by
    rw [hstartRel, hwn, vec_sub_smul_zero]
    exact normalize_smul_unit huu hs
  -- geometry: the projected, normalized current direction is `cos θ · u + sin θ · v`
  have hPA : (Ray3.intersectPlane ray ⟨n, w.drag.planeConstant⟩).getD w.drag.scratchA
      = m.position.add
        (((u.multiplyScalar (Real.cos θ)).add (v.multiplyScalar (Real.sin θ))).multiplyScalar r) := by
    rw [hp]; rfl
  have hcvn : ((u.multiplyScalar (Real.cos θ)).add (v.multiplyScalar (Real.sin θ))).dot n = 0 := by
    simp only [Vec3.multiplyScalar, Vec3.add, Vec3.dot] at hun hvn ⊢
    linear_combination Real.cos θ * hun + Real.sin θ * hvn
  have hcvu : ((u.multiplyScalar (Real.cos θ)).add (v.multiplyScalar (Real.sin θ))).dot
      ((u.multiplyScalar (Real.cos θ)).add (v.multiplyScalar (Real.sin θ))) = 1 := by
    simp only [Vec3.multiplyScalar, Vec3.add, Vec3.dot] at huu hvv huv ⊢
    linear_combination (Real.cos θ) ^ 2 * huu + (Real.sin θ) ^ 2 * hvv +
      (2 * Real.cos θ * Real.sin θ) * huv + Real.sin_sq_add_cos_sq θ
  have hwn2 : (((u.multiplyScalar (Real.cos θ)).add
      (v.multiplyScalar (Real.sin θ))).multiplyScalar r).dot n = 0 := by
    simp only [Vec3.multiplyScalar, Vec3.add, Vec3.dot] at hcvn ⊢
    linear_combination r * hcvn
  have hcurDir : (((m.position.add
        (((u.multiplyScalar (Real.cos θ)).add (v.multiplyScalar (Real.sin θ))).multiplyScalar r)).sub
          m.position).sub
        (n.multiplyScalar (((m.position.add
          (((u.multiplyScalar (Real.cos θ)).add (v.multiplyScalar (Real.sin θ))).multiplyScalar r)).sub
            m.position).dot n))).normalize
      = (u.multiplyScalar (Real.cos θ)).add (v.multiplyScalar (Real.sin θ)) := by
    rw [vec_add_sub, hwn2, vec_sub_smul_zero]
    exact normalize_smul_unit hcvu hr
  -- the signed sine and cosine of the handler's angle
  have hsinA : (u.cross ((u.multiplyScalar (Real.cos θ)).add
      (v.multiplyScalar (Real.sin θ)))).dot n = Real.sin θ := by
    rw [← hcr] at hnn ⊢
    simp only [Vec3.multiplyScalar, Vec3.add, Vec3.cross, Vec3.dot] at hnn ⊢
    linear_combination Real.sin θ * hnn
  have hcosA : u.dot ((u.multiplyScalar (Real.cos θ)).add
      (v.multiplyScalar (Real.sin θ))) = Real.cos θ := by
    simp only [Vec3.multiplyScalar, Vec3.add, Vec3.dot] at huu huv ⊢
    linear_combination Real.cos θ * huu + Real.sin θ * huv
  have hrun : (handlePointerMove TransformMode.rotate space (some obj) ray w).registry.get obj.id
      = some { m with
          quaternion := (if space = TransformSpace.locals
            then w.drag.startQuaternion.multiply
              (Quat.fromAxisAngle n (atan2 (Real.sin θ) (Real.cos θ)))
            else (Quat.fromAxisAngle n (atan2 (Real.sin θ) (Real.cos θ))).multiply
              w.drag.startQuaternion)
          rotation := eulerXYZFromQuat (if space = TransformSpace.locals
            then w.drag.startQuaternion.multiply
              (Quat.fromAxisAngle n (atan2 (Real.sin θ) (Real.cos θ)))
            else (Quat.fromAxisAngle n (atan2 (Real.sin θ) (Real.cos θ))).multiply
              w.drag.startQuaternion) } := by
    simp [handlePointerMove, hm', hact, MeshRegistry.get, MeshRegistry.register, hn,
      hPA, hstartDir, hcurDir, hsinA, hcosA]
  refine ⟨_, hrun, rfl, ⟨atan2_neg_pi_lt _ _, atan2_le_pi _ _⟩,
    fun hθ => atan2_sin_cos_eq hθ, ?_⟩
  intro vec
  obtain ⟨k, hk⟩ := atan2_sin_cos_shift θ
  rcases fromAxisAngle_shift n θ k with he | he
  · by_cases hsp : space = TransformSpace.locals <;>
      simp only [hsp, if_pos, if_true, if_neg, if_false, hk, he, reduceIte]
  · by_cases hsp : space = TransformSpace.locals
    · simp only [hsp, reduceIte, hk, he]
      rw [multiply_neg_right, applyQuaternion_neg]
    · simp only [hsp, reduceIte, hk, he]
      rw [multiply_neg_left, applyQuaternion_neg]

/-- Witness for `c4_rotate_atan2_angle`: a world-space rotate move about the
Z axis on the demo scene, with the pointer at angle `0` on the unit circle in
the plane `z = 0`. -/
theorem c4_rotate_atan2_angle_witness :
    ∃ m', (handlePointerMove TransformMode.rotate TransformSpace.world (some demoA)
        ⟨⟨1, 0, 1⟩, ⟨0, 0, -1⟩⟩
        ⟨demoStore, demoRegistry,
          ⟨true, some AxisTag.Z, ⟨1, 0, 0⟩, ⟨0, 0, 0⟩, ⟨0, 0, 0⟩, ⟨1, 1, 1⟩, ⟨0, 0, 0, 1⟩,
           ⟨0, 0, 1⟩, 0, ⟨1, 0, 0⟩, 0, 0, ⟨0, 0, 0⟩⟩,
          true, false, true, true⟩).registry.get demoA.id = some m' ∧
      m'.quaternion = (Quat.fromAxisAngle ⟨0, 0, 1⟩
          (atan2 (Real.sin 0) (Real.cos 0))).multiply ⟨0, 0, 0, 1⟩ := by
  obtain ⟨m', h1, h2, _⟩ := c4_rotate_atan2_angle TransformSpace.world demoA demoMesh
    ⟨⟨1, 0, 1⟩, ⟨0, 0, -1⟩⟩
    ⟨demoStore, demoRegistry,
      ⟨true, some AxisTag.Z, ⟨1, 0, 0⟩, ⟨0, 0, 0⟩, ⟨0, 0, 0⟩, ⟨1, 1, 1⟩, ⟨0, 0, 0, 1⟩,
       ⟨0, 0, 1⟩, 0, ⟨1, 0, 0⟩, 0, 0, ⟨0, 0, 0⟩⟩,
      true, false, true, true⟩
    ⟨1, 0, 0⟩ ⟨0, 1, 0⟩ ⟨0, 0, 1⟩ 1 1 0
    (by simp [MeshRegistry.get, demoRegistry, demoA]) rfl rfl
    (by norm_num [Vec3.add, Vec3.multiplyScalar, demoMesh, Vec3.mk.injEq])
    one_pos one_pos
    (by norm_num [Vec3.dot]) (by norm_num [Vec3.dot]) (by norm_num [Vec3.dot])
    (by norm_num [Vec3.dot]) (by norm_num [Vec3.dot]) (by norm_num [Vec3.dot])
    (by norm_num [Vec3.cross, Vec3.mk.injEq])
    (by simp [Ray3.intersectPlane, Ray3.distanceToPlane, PlaneH.distanceToPoint, Ray3.at,
      Vec3.dot, Vec3.add, Vec3.multiplyScalar, demoMesh, Vec3.mk.injEq, Real.cos_zero,
      Real.sin_zero])
  exact ⟨m', h1, by simpa using h2⟩

/-- C1: for every drag session — pointer-down on a handle with a recognized
axis tag over a live renderable, any number of pointer-moves, pointer-up —
(i) no intermediate pointer-move ever changes the scene-graph store, and
(ii) at drag-end the store is written by exactly one `updateTransform`
commit, whose position/rotation/scale are exactly the live renderable's
values at the moment of drag-end (the commit log grows by exactly that one
entry). -/
theorem c1_drag_commit_roundtrip (cameraPos : Vec3) (mode : TransformMode)
    (space : TransformSpace) (obj : SceneObject) (m0 : Mesh3) (ev : PointerEv)
    (ax : AxisTag) (rays : List Ray3) (w0 : GizmoWorld)
    (hreg : w0.registry.get obj.id = some m0) :
    (∀ pre : List Ray3,
      (gizmoMoves mode space (some obj) pre
        (handlePointerDown cameraPos mode space (some obj) ev (some ax) w0)).store
        = w0.store) ∧
    ∃ mEnd : Mesh3,
      (gizmoMoves mode space (some obj) rays
        (handlePointerDown cameraPos mode space (some obj) ev (some ax) w0)).registry.get obj.id
        = some mEnd ∧
      (handlePointerUp (some obj)
        (gizmoMoves mode space (some obj) rays
          (handlePointerDown cameraPos mode space (some obj) ev (some ax) w0))).store
        = w0.store.updateTransform obj.id ⟨mEnd.position, mEnd.rotation, mEnd.scale⟩ ∧
      (handlePointerUp (some obj)
        (gizmoMoves mode space (some obj) rays
          (handlePointerDown cameraPos mode space (some obj) ev (some ax) w0))).store.writeLog
        = w0.store.writeLog ++ [(obj.id, ⟨mEnd.position, mEnd.rotation, mEnd.scale⟩)] := by
  set w1 := handlePointerDown cameraPos mode space (some obj) ev (some ax) w0 with hw1
  have hw1store : w1.store = w0.store := down_store_eq cameraPos mode space obj ev ax w0 m0 hreg
  have hw1reg : w1.registry = w0.registry := down_registry_eq cameraPos mode space obj ev ax w0 m0 hreg
  have hw1active : w1.drag.active = true := down_active_eq cameraPos mode space obj ev ax w0 m0 hreg
  constructor
  · intro pre
    rw [moves_store_eq mode space obj pre w1, hw1store]
  · have hsome : ((gizmoMoves mode space (some obj) rays w1).registry.get obj.id).isSome := by
      apply moves_registry_isSome mode space obj rays w1
      rw [show w1.registry.get obj.id = w0.registry.get obj.id from congrArg (fun r => MeshRegistry.get r obj.id) hw1reg, hreg]
      rfl
    obtain ⟨mEnd, hmEnd⟩ := Option.isSome_iff_exists.mp hsome
    refine ⟨mEnd, hmEnd, ?_, ?_⟩
    · have hact : (gizmoMoves mode space (some obj) rays w1).drag.active = true := by
        rw [moves_active_eq mode space obj rays w1, hw1active]
      rw [up_commit_eq obj _ mEnd hact hmEnd, moves_store_eq mode space obj rays w1, hw1store]
    · have hact : (gizmoMoves mode space (some obj) rays w1).drag.active = true := by
        rw [moves_active_eq mode space obj rays w1, hw1active]
      rw [up_commit_eq obj _ mEnd hact hmEnd, moves_store_eq mode space obj rays w1, hw1store]
      rfl

/-- Witness for `c1_drag_commit_roundtrip`: on the concrete demo world, the
store is untouched after drag-start and an empty move sequence. -/
theorem c1_drag_commit_roundtrip_witness :
    (gizmoMoves TransformMode.translate TransformSpace.world (some demoA) []
      (handlePointerDown demoCamera TransformMode.translate TransformSpace.world
        (some demoA) demoEv (some AxisTag.X) demoWorld)).store = demoWorld.store :=
  (c1_drag_commit_roundtrip demoCamera TransformMode.translate TransformSpace.world
    demoA demoMesh demoEv AxisTag.X [] demoWorld
    (by simp [demoWorld, demoRegistry, demoA, MeshRegistry.get])).1 []

end

end SceneEditor
